import Mathlib

/-!
Verification of the CardPuter Charge Mode firmware
(`cardputer_charge_mode.ino`): a shallow embedding of the battery
classifier, the WS2812 bitstream encoder, the LCD sleep sequencer and the
setup/loop scheduler, together with theorems about them.  Hardware effects
are modelled as explicit action traces; machine integers are modelled by
`Nat`/`Int` (with explicit 32-bit wrap where the source relies on it) and
the source's `float` arithmetic by exact rational arithmetic on `ℚ`.
-/

namespace ChargeMode

/-- `BATTERY_UPDATE_MS` from the source: update LED color every 10 s. -/
def BATTERY_UPDATE_MS : Nat := 10000

/-- `MIN_BACKLIGHT_DUTY` from the source: minimum PWM duty (~30% of 14 bit). -/
def MIN_BACKLIGHT_DUTY : Nat := 5000

/-- `LCD_DC` pin number from the source. -/
def LCD_DC : Nat := 34

/-- `LCD_RST` pin number from the source. -/
def LCD_RST : Nat := 33

/-- Zone transition of `getBatteryColor`: the source first computes
`new_zone` from `current_zone` (with `-1` meaning unset) and the percent
`level`, mirroring the if/else-if chain of lines 87-102. -/
def classifyZone (z level : ℤ) : ℤ :=
  if z = -1 then
    if level < 25 then 0
    else if level < 50 then 1
    else if level < 75 then 2
    else 3
  else
    if z = 0 ∧ 28 ≤ level then 1
    else if z = 1 ∧ level < 22 then 0
    else if z = 1 ∧ 53 ≤ level then 2
    else if z = 2 ∧ level < 47 then 1
    else if z = 2 ∧ 78 ≤ level then 3
    else if z = 3 ∧ level < 72 then 2
    else z

/-- The `switch (new_zone)` of `getBatteryColor` (lines 105-110): zone to
RGB triple, with the `default` branch giving green. -/
def zoneColor (z : ℤ) : Nat × Nat × Nat :=
  if z = 0 then (255, 0, 0)
  else if z = 1 then (255, 128, 0)
  else if z = 2 then (255, 255, 0)
  else (0, 255, 0)

/-- `getBatteryColor` as a state-passing function: given the stored
`current_zone` and the percent, return the new stored zone and the RGB
output written through the pointers. -/
def getBatteryColor (z level : ℤ) : ℤ × Nat × Nat × Nat :=
  (classifyZone z level, zoneColor (classifyZone z level))

/-- Successive calls of the classifier on a percent list, threading the
stored zone, returning the zone after each call. -/
def runClassifier (z : ℤ) : List ℤ → List ℤ
  | [] => []
  | l :: ls => classifyZone z l :: runClassifier (classifyZone z l) ls

/-- A zone in `{0, 1}` is fixed by every input in `{24, 26}`. -/
theorem classifyZone_stable (z l : ℤ) (hz : z = 0 ∨ z = 1)
    (hl : l = 24 ∨ l = 26) : classifyZone z l = z := by
  rcases hz with hz | hz <;> rcases hl with hl | hl <;>
    subst hz <;> subst hl <;> decide

/-- Running the classifier from a zone in `{0, 1}` on inputs drawn from
`{24, 26}` outputs that zone at every step. -/
theorem runClassifier_stable (z : ℤ) (hz : z = 0 ∨ z = 1) :
    ∀ ls : List ℤ, (∀ x ∈ ls, x = 24 ∨ x = 26) →
      runClassifier z ls = List.replicate ls.length z := by
  intro ls
  induction ls with
  | nil => intro _; rfl
  | cons l ls ih =>
    intro h
    have hl : l = 24 ∨ l = 26 := h l (List.mem_cons_self l ls)
    have hz' : classifyZone z l = z := classifyZone_stable z l hz hl
    simp only [runClassifier, hz', List.length_cons, List.replicate_succ,
      List.cons.injEq, true_and]
    exact ih fun x hx => h x (List.mem_cons_of_mem l hx)

/-- C1 counterexample: from the unset state, the percent sequence
[10, 26, 52, 80, 70] does NOT yield the zone sequence [0, 0, 2, 3, 2]
claimed by the spec; the if/else-if chain moves at most one zone per call,
so the third call goes 0 → 1, not 0 → 2. -/
theorem c1_zone_scenario_counterexample :
    runClassifier (-1) [10, 26, 52, 80, 70] ≠ [0, 0, 2, 3, 2] := by
  decide

/-- C1 (amended): from the unset state, the percent sequence
[10, 26, 52, 80, 70] yields the zone sequence [0, 0, 1, 2, 2]: the third
call advances only a single zone (0 → 1) even though the input crossed two
plain thresholds, because the hysteresis chain takes one branch per call. -/
theorem c1_zone_scenario :
    runClassifier (-1) [10, 26, 52, 80, 70] = [0, 0, 1, 2, 2] := by
  decide

/-- C7: hysteresis bands of the classifier.  From a held zone `k`,
advancing to `k + 1` happens exactly when the level is at least three above
the plain threshold `25 * (k + 1)`, and receding to `k - 1` happens exactly
when the level is strictly below `25 * k - 3`; consequently a run whose
first input is 24 or 26 and whose remaining inputs stay in `{24, 26}`
reports the initial classification at every step. -/
theorem c7_hysteresis :
    (∀ k : ℤ, (k = 0 ∨ k = 1 ∨ k = 2) → ∀ level : ℤ,
        (classifyZone k level = k + 1 ↔ 25 * (k + 1) + 3 ≤ level)) ∧
    (∀ k : ℤ, (k = 1 ∨ k = 2 ∨ k = 3) → ∀ level : ℤ,
        (classifyZone k level = k - 1 ↔ level < 25 * k - 3)) ∧
    (∀ l0 : ℤ, (l0 = 24 ∨ l0 = 26) → ∀ ls : List ℤ,
        (∀ x ∈ ls, x = 24 ∨ x = 26) →
        runClassifier (-1) (l0 :: ls) =
          List.replicate (ls.length + 1) (classifyZone (-1) l0)) := by
  refine ⟨?_, ?_, ?_⟩
  · intro k hk level
    rcases hk with hk | hk | hk <;> subst hk <;>
      norm_num [classifyZone] <;> (try split_ifs) <;> omega
  · intro k hk level
    rcases hk with hk | hk | hk <;> subst hk <;>
      norm_num [classifyZone] <;> (try split_ifs) <;> omega
  · intro l0 hl0 ls hls
    have hz : classifyZone (-1) l0 = 0 ∨ classifyZone (-1) l0 = 1 := by
      rcases hl0 with h | h <;> subst h <;> decide
    simp only [runClassifier, List.replicate_succ, List.cons.injEq, true_and]
    exact runClassifier_stable (classifyZone (-1) l0) hz ls hls

/-- Witness for C7 at concrete inputs: zone 0 advances at level 30,
zone 1 recedes at level 20, and the run 24, 26, 24 stays at the initial
classification. -/
theorem c7_hysteresis_witness :
    (classifyZone 0 30 = 0 + 1 ↔ 25 * (0 + 1) + 3 ≤ (30 : ℤ)) ∧
    (classifyZone 1 20 = 1 - 1 ↔ (20 : ℤ) < 25 * 1 - 3) ∧
    runClassifier (-1) (24 :: [26, 24]) =
      List.replicate ([26, 24].length + 1) (classifyZone (-1) 24) :=
  ⟨c7_hysteresis.1 0 (Or.inl rfl) 30,
   c7_hysteresis.2.1 1 (Or.inl rfl) 20,
   c7_hysteresis.2.2 24 (Or.inl rfl) [26, 24] (by decide)⟩

/-- C9: the zone-to-color map is the fixed table
{0 ↦ (255,0,0), 1 ↦ (255,128,0), 2 ↦ (255,255,0), 3 ↦ (0,255,0)},
realised by a total function. -/
theorem c9_zone_color_table :
    zoneColor 0 = (255, 0, 0) ∧ zoneColor 1 = (255, 128, 0) ∧
    zoneColor 2 = (255, 255, 0) ∧ zoneColor 3 = (0, 255, 0) := by
  decide

/-- One RMT symbol (`rmt_symbol_word_t`): two pulse halves, each a line
level and a duration counted in ticks of the channel resolution. -/
structure RmtSymbol where
  level0 : Nat
  duration0 : Nat
  level1 : Nat
  duration1 : Nat
deriving DecidableEq

/-- `resolution_hz` of the RMT TX channel (line 312 of the source):
10 MHz, i.e. 100 ns per tick. -/
def RESOLUTION_HZ : Nat := 10000000

/-- Nanoseconds per RMT tick at the configured resolution. -/
def tickNs : Nat := 1000000000 / RESOLUTION_HZ

/-- The bit-0 symbol from `bytes_cfg` in `ws2812_encoder_new`
(lines 173-174): level 1 for 3 ticks, then level 0 for 9 ticks. -/
def bit0Sym : RmtSymbol := ⟨1, 3, 0, 9⟩

/-- The bit-1 symbol from `bytes_cfg` (lines 175-176): level 1 for 9
ticks, then level 0 for 3 ticks. -/
def bit1Sym : RmtSymbol := ⟨1, 9, 0, 3⟩

/-- The `reset_code` of the encoder (lines 192-193): low for 400 + 400
ticks. -/
def resetSym : RmtSymbol := ⟨0, 400, 0, 400⟩

/-- Bits of one payload byte, most significant first (`msb_first = 1`,
line 177). -/
def byteBits (b : Nat) : List Bool :=
  [b.testBit 7, b.testBit 6, b.testBit 5, b.testBit 4,
   b.testBit 3, b.testBit 2, b.testBit 1, b.testBit 0]

/-- The bytes encoder maps each bit to its pulse symbol. -/
def encodeBit (bit : Bool) : RmtSymbol :=
  if bit then bit1Sym else bit0Sym

/-- Phase A of `ws2812_encode`: the `bytes_encoder` emits one symbol per
bit of each payload byte, msb first, in payload order. -/
def bytesEncode (payload : List Nat) : List RmtSymbol :=
  (payload.map fun b => (byteBits b).map encodeBit).flatten

/-- `ws2812_encode` over a complete pass: Phase A (state 0, payload bits)
falls through to Phase B (state 1), which appends the single reset symbol
via the copy encoder and reports completion. -/
def ws2812Encode (payload : List Nat) : List RmtSymbol :=
  bytesEncode payload ++ [resetSym]

/-- Inverse decoding of one symbol from its nominal high-pulse duration:
3 ticks high is a 0 bit, 9 ticks high is a 1 bit. -/
def decodeSym (s : RmtSymbol) : Option Bool :=
  if s.duration0 = 3 then some false
  else if s.duration0 = 9 then some true
  else none

/-- Decode a symbol list bit by bit, failing on any non-bit symbol. -/
def decodeSyms : List RmtSymbol → Option (List Bool)
  | [] => some []
  | s :: rest =>
    (decodeSym s).bind fun b => (decodeSyms rest).bind fun bs => some (b :: bs)

/-- Reassemble a msb-first bit list into a byte value. -/
def bitsToByte (l : List Bool) : Nat :=
  l.foldl (fun a bit => 2 * a + (if bit then 1 else 0)) 0

/-- Simulated decoder of a 24-symbol frame into its three payload bytes. -/
def decodeFrame (syms : List RmtSymbol) : Option (List Nat) :=
  (decodeSyms syms).bind fun bits =>
    if bits.length = 24 then
      some [bitsToByte (bits.take 8), bitsToByte ((bits.drop 8).take 8),
            bitsToByte (bits.drop 16)]
    else none

/-- Decoding inverts the bit-to-symbol map. -/
theorem decodeSym_encodeBit (bit : Bool) : decodeSym (encodeBit bit) = some bit := by
  cases bit <;> rfl

/-- Decoding inverts the symbol-wise image of a bit list. -/
theorem decodeSyms_map_encodeBit (bits : List Bool) :
    decodeSyms (bits.map encodeBit) = some bits := by
  induction bits with
  | nil => rfl
  | cons bit bits ih =>
    simp [decodeSyms, decodeSym_encodeBit, ih]

/-- Decoding distributes over append when both halves decode. -/
theorem decodeSyms_append (xs ys : List RmtSymbol) (bx bs : List Bool)
    (hx : decodeSyms xs = some bx) (hy : decodeSyms ys = some bs) :
    decodeSyms (xs ++ ys) = some (bx ++ bs) := by
  induction xs generalizing bx with
  | nil =>
    simp only [decodeSyms] at hx
    simp [Option.some.injEq] at hx
    subst hx
    simpa using hy
  | cons s rest ih =>
    simp only [decodeSyms] at hx ⊢
    cases hs : decodeSym s with
    | none => simp [hs] at hx
    | some b =>
      simp only [hs, Option.some_bind] at hx ⊢
      cases hr : decodeSyms rest with
      | none => simp [hr] at hx
      | some br =>
        simp only [hr, Option.some_bind, Option.some.injEq] at hx
        subst hx
        simp [List.cons_append, ih br hr]

/-- Bit decomposition followed by reassembly is the identity below 256. -/
theorem bitsToByte_byteBits : ∀ b < 256, bitsToByte (byteBits b) = b := by
  unfold byteBits
  set_option maxRecDepth 4000 in decide

/-- C4: encoding a 3-byte payload yields exactly 24 bit-pulse symbols (msb
first) followed by exactly one reset symbol, and decoding the nominal pulse
durations of those 24 symbols recovers the original bytes. -/
theorem c4_roundtrip (b0 b1 b2 : Nat) (h0 : b0 < 256) (h1 : b1 < 256)
    (h2 : b2 < 256) :
    (ws2812Encode [b0, b1, b2]).length = 25 ∧
    (ws2812Encode [b0, b1, b2]).take 24 = bytesEncode [b0, b1, b2] ∧
    (bytesEncode [b0, b1, b2]).length = 24 ∧
    (ws2812Encode [b0, b1, b2]).drop 24 = [resetSym] ∧
    decodeFrame ((ws2812Encode [b0, b1, b2]).take 24) = some [b0, b1, b2] := by
  have hlen : (bytesEncode [b0, b1, b2]).length = 24 := by
    simp [bytesEncode, byteBits]
  have htake : (ws2812Encode [b0, b1, b2]).take 24 = bytesEncode [b0, b1, b2] := by
    rw [ws2812Encode, ← hlen, List.take_left]
  have hdec : decodeSyms (bytesEncode [b0, b1, b2]) =
      some (byteBits b0 ++ (byteBits b1 ++ byteBits b2)) := by
    have e0 := decodeSyms_map_encodeBit (byteBits b0)
    have e1 := decodeSyms_map_encodeBit (byteBits b1)
    have e2 := decodeSyms_map_encodeBit (byteBits b2)
    have e12 := decodeSyms_append ((byteBits b1).map encodeBit)
      ((byteBits b2).map encodeBit) (byteBits b1) (byteBits b2) e1 e2
    have e012 := decodeSyms_append ((byteBits b0).map encodeBit)
      (((byteBits b1).map encodeBit) ++ ((byteBits b2).map encodeBit))
      (byteBits b0) (byteBits b1 ++ byteBits b2) e0 e12
    simpa [bytesEncode] using e012
  refine ⟨?_, htake, hlen, ?_, ?_⟩
  · simp [ws2812Encode, hlen]
  · rw [ws2812Encode, ← hlen, List.drop_left]
  · rw [htake, decodeFrame, hdec, Option.some_bind]
    have hsplit :
        (byteBits b0 ++ (byteBits b1 ++ byteBits b2)).length = 24 ∧
        (byteBits b0 ++ (byteBits b1 ++ byteBits b2)).take 8 = byteBits b0 ∧
        ((byteBits b0 ++ (byteBits b1 ++ byteBits b2)).drop 8).take 8 = byteBits b1 ∧
        (byteBits b0 ++ (byteBits b1 ++ byteBits b2)).drop 16 = byteBits b2 := by
      refine ⟨by simp [byteBits], ?_, ?_, ?_⟩ <;>
        simp [byteBits, List.take, List.drop]
    rw [if_pos hsplit.1, hsplit.2.1, hsplit.2.2.1, hsplit.2.2.2,
      bitsToByte_byteBits b0 h0, bitsToByte_byteBits b1 h1,
      bitsToByte_byteBits b2 h2]

/-- Witness for C4 at the concrete payload bytes 18, 52, 86. -/
theorem c4_roundtrip_witness :
    (18 < 256 ∧ 52 < 256 ∧ 86 < 256) ∧
    (ws2812Encode [18, 52, 86]).length = 25 ∧
    (ws2812Encode [18, 52, 86]).take 24 = bytesEncode [18, 52, 86] ∧
    (bytesEncode [18, 52, 86]).length = 24 ∧
    (ws2812Encode [18, 52, 86]).drop 24 = [resetSym] ∧
    decodeFrame ((ws2812Encode [18, 52, 86]).take 24) = some [18, 52, 86] :=
  ⟨⟨by decide, by decide, by decide⟩,
   c4_roundtrip 18 52 86 (by decide) (by decide) (by decide)⟩

/-- C5: at the 10 MHz channel resolution one tick is 100 ns; every payload
symbol is the bit-0 pulse (3 ticks = 300 ns high, 9 ticks = 900 ns low) or
the bit-1 pulse (9 ticks = 900 ns high, 3 ticks = 300 ns low), and the
reset symbol is all-low with total duration 800 ticks = 80 µs ≥ 50 µs. -/
theorem c5_timing :
    tickNs = 100 ∧
    (∀ payload : List Nat, ∀ s ∈ bytesEncode payload, s = bit0Sym ∨ s = bit1Sym) ∧
    (bit0Sym.level0 = 1 ∧ bit0Sym.duration0 * tickNs = 300 ∧
      bit0Sym.level1 = 0 ∧ bit0Sym.duration1 * tickNs = 900) ∧
    (bit1Sym.level0 = 1 ∧ bit1Sym.duration0 * tickNs = 900 ∧
      bit1Sym.level1 = 0 ∧ bit1Sym.duration1 * tickNs = 300) ∧
    (resetSym.level0 = 0 ∧ resetSym.level1 = 0 ∧
      resetSym.duration0 + resetSym.duration1 = 800 ∧
      (resetSym.duration0 + resetSym.duration1) * tickNs = 80000 ∧
      50000 ≤ (resetSym.duration0 + resetSym.duration1) * tickNs) := by
  refine ⟨by decide, ?_, by decide, by decide, by decide⟩
  intro payload s hs
  simp only [bytesEncode, List.mem_flatten, List.mem_map] at hs
  obtain ⟨l, ⟨b, _, hb⟩, hsl⟩ := hs
  subst hb
  obtain ⟨bit, _, hbit⟩ := List.mem_map.mp hsl
  subst hbit
  cases bit
  · exact Or.inl rfl
  · exact Or.inr rfl

/-- Witness for C5: the first symbol of the encoding of byte 0 is the
bit-0 pulse. -/
theorem c5_timing_witness :
    bit0Sym ∈ bytesEncode [0] ∧ (bit0Sym = bit0Sym ∨ bit0Sym = bit1Sym) :=
  ⟨by decide, c5_timing.2.1 [0] bit0Sym (by decide)⟩

/-- Truncation of a rational toward zero, as the C assignment of a float
expression to `int` does. -/
def ratTrunc (q : ℚ) : ℤ := if 0 ≤ q then ⌊q⌋ else -⌊-q⌋

/-- Arduino `constrain(amt, low, high)`. -/
def constrain (x lo hi : ℤ) : ℤ :=
  if x < lo then lo else if hi < x then hi else x

/-- `BATTERY_MIN_V` (3.0 V) as an exact rational. -/
def BATTERY_MIN_V : ℚ := 3

/-- `BATTERY_MAX_V` (4.2 V) as an exact rational. -/
def BATTERY_MAX_V : ℚ := 21 / 5

/-- Lines 75-76 of the source: linear map of the voltage from
[3.0 V, 4.2 V] onto [0, 100], truncated to `int` and clamped; the float
arithmetic is modelled by exact rational arithmetic. -/
def batteryLevelFromVoltage (V : ℚ) : ℤ :=
  constrain (ratTrunc ((V - BATTERY_MIN_V) / (BATTERY_MAX_V - BATTERY_MIN_V) * 100))
    0 100

/-- Line 73: eight millivolt samples (`mv i` is the i-th reading of
`analogReadMilliVolts`) summed, integer-divided by 8, doubled for the 2:1
divider and scaled from mV to V. -/
def batteryVoltage (mv : Nat → Nat) : ℚ :=
  (((List.range 8).foldl (fun a i => a + mv i) 0 / 8 : Nat) : ℚ) * 2 / 1000

/-- `getBatteryLevel`: the sampled voltage pushed through the percent
map. -/
def getBatteryLevel (mv : Nat → Nat) : ℤ :=
  batteryLevelFromVoltage (batteryVoltage mv)

/-- Truncation toward zero is monotone. -/
theorem ratTrunc_mono (q r : ℚ) (h : q ≤ r) : ratTrunc q ≤ ratTrunc r := by
  unfold ratTrunc
  split_ifs with hq hr hr
  · exact Int.floor_le_floor h
  · linarith
  · have h1 : (0 : ℤ) ≤ ⌊r⌋ := Int.floor_nonneg.mpr hr
    have h2 : (0 : ℤ) ≤ ⌊-q⌋ := Int.floor_nonneg.mpr (by linarith)
    omega
  · have h1 : ⌊-r⌋ ≤ ⌊-q⌋ := Int.floor_le_floor (by linarith)
    omega

/-- Truncation of a nonpositive rational is nonpositive. -/
theorem ratTrunc_nonpos (q : ℚ) (h : q ≤ 0) : ratTrunc q ≤ 0 := by
  unfold ratTrunc
  split_ifs with hq
  · have h0 : ⌊q⌋ ≤ ⌊(0 : ℚ)⌋ := Int.floor_le_floor h
    simpa using h0
  · have h2 : (0 : ℤ) ≤ ⌊-q⌋ := Int.floor_nonneg.mpr (by linarith)
    omega

/-- Truncation of a rational that is at least 100 is at least 100. -/
theorem ratTrunc_ge_100 (q : ℚ) (h : 100 ≤ q) : 100 ≤ ratTrunc q := by
  unfold ratTrunc
  split_ifs with hq
  · exact_mod_cast Int.le_floor.mpr (by exact_mod_cast h)
  · linarith

/-- The percent argument, with the constant division folded away. -/
theorem battery_arg (V : ℚ) :
    (V - BATTERY_MIN_V) / (BATTERY_MAX_V - BATTERY_MIN_V) * 100 =
      (V - 3) * (250 / 3) := by
  rw [BATTERY_MIN_V, BATTERY_MAX_V]
  ring_nf

/-- C6: the percent map of `getBatteryLevel` yields 0 for every voltage at
most 3.0 V, 100 for every voltage at least 4.2 V, is monotone
non-decreasing in the voltage, always lands in [0, 100], and is exactly
what `getBatteryLevel` applies to the averaged sampled voltage. -/
theorem c6_level_bounds_mono :
    (∀ V : ℚ, V ≤ 3 → batteryLevelFromVoltage V = 0) ∧
    (∀ V : ℚ, 21 / 5 ≤ V → batteryLevelFromVoltage V = 100) ∧
    (∀ V W : ℚ, V ≤ W → batteryLevelFromVoltage V ≤ batteryLevelFromVoltage W) ∧
    (∀ V : ℚ, 0 ≤ batteryLevelFromVoltage V ∧ batteryLevelFromVoltage V ≤ 100) ∧
    (∀ mv : Nat → Nat, getBatteryLevel mv = batteryLevelFromVoltage (batteryVoltage mv)) := by
  refine ⟨?_, ?_, ?_, ?_, fun _ => rfl⟩
  · intro V hV
    have harg : (V - 3) * (250 / 3) ≤ 0 := by nlinarith
    have ht := ratTrunc_nonpos _ harg
    rw [batteryLevelFromVoltage, battery_arg, constrain]
    split_ifs <;> omega
  · intro V hV
    have harg : (100 : ℚ) ≤ (V - 3) * (250 / 3) := by nlinarith
    have ht := ratTrunc_ge_100 _ harg
    rw [batteryLevelFromVoltage, battery_arg, constrain]
    split_ifs <;> omega
  · intro V W hVW
    have harg : (V - 3) * (250 / 3) ≤ (W - 3) * (250 / 3) := by nlinarith
    have ht := ratTrunc_mono _ _ harg
    rw [batteryLevelFromVoltage, batteryLevelFromVoltage, battery_arg,
      battery_arg, constrain, constrain]
    split_ifs <;> omega
  · intro V
    rw [batteryLevelFromVoltage, constrain]
    split_ifs <;> omega

/-- Witness for C6 at concrete voltages 2 V, 5 V and 3.5 V ≤ 3.6 V. -/
theorem c6_level_bounds_mono_witness :
    ((2 : ℚ) ≤ 3 ∧ batteryLevelFromVoltage 2 = 0) ∧
    ((21 / 5 : ℚ) ≤ 5 ∧ batteryLevelFromVoltage 5 = 100) ∧
    ((7 / 2 : ℚ) ≤ 18 / 5 ∧
      batteryLevelFromVoltage (7 / 2) ≤ batteryLevelFromVoltage (18 / 5)) :=
  ⟨⟨by norm_num, c6_level_bounds_mono.1 2 (by norm_num)⟩,
   ⟨by norm_num, c6_level_bounds_mono.2.1 5 (by norm_num)⟩,
   ⟨by norm_num, c6_level_bounds_mono.2.2.1 (7 / 2) (18 / 5) (by norm_num)⟩⟩

/-- Hardware effects performed by the firmware, as explicit trace
entries. -/
inductive Action where
  | ledcTimerSetup : Action
  | setBacklightDuty (duty : Nat) : Action
  | gpioSetDirection (pin : Nat) : Action
  | gpioSetLevel (pin lvl : Nat) : Action
  | delayMs (ms : Nat) : Action
  | spiTransmit (dc : Nat) (byte : Nat) : Action
  | rmtTransmit (payload : List Nat) : Action
deriving DecidableEq

/-- The duty value written by a backlight-duty action, if any. -/
def backlightWrite : Action → Option Nat
  | Action.setBacklightDuty d => some d
  | _ => none

/-- The payload of an RMT transmission action, if any. -/
def rmtPayload : Action → Option (List Nat)
  | Action.rmtTransmit p => some p
  | _ => none

/-- The byte of an SPI transaction action, if any. -/
def spiByte : Action → Option Nat
  | Action.spiTransmit _ b => some b
  | _ => none

/-- The global state of the firmware: whether the handles `spi_lcd`,
`led_chan` and `led_encoder` are non-NULL, and the stored
`current_zone`. -/
structure FwState where
  spi_lcd : Bool
  led_chan : Bool
  led_encoder : Bool
  current_zone : ℤ

/-- Outcomes of the fallible calls in `setup`, plus the millivolt values
returned by `analogReadMilliVolts` (sample index to mV).  `spiBusOk` is
true when `spi_bus_initialize` returns `ESP_OK` or
`ESP_ERR_INVALID_STATE`; `spiAddOk`, `rmtChanOk`, `encoderOk` and
`rmtEnableOk` are true when `spi_bus_add_device`, `rmt_new_tx_channel`,
`ws2812_encoder_new` and `rmt_enable` succeed. -/
structure Env where
  spiBusOk : Bool
  spiAddOk : Bool
  rmtChanOk : Bool
  encoderOk : Bool
  rmtEnableOk : Bool
  mv : Nat → Nat

/-- `lcd_cmd`: a no-op without a device, else DC low and one SPI byte. -/
def lcd_cmdActions (spi : Bool) (c : Nat) : List Action :=
  if spi then [Action.gpioSetLevel LCD_DC 0, Action.spiTransmit 0 c] else []

/-- `lcd_data`: a no-op without a device, else DC high and one SPI byte. -/
def lcd_dataActions (spi : Bool) (d : Nat) : List Action :=
  if spi then [Action.gpioSetLevel LCD_DC 1, Action.spiTransmit 1 d] else []

/-- `lcd_sleep` (lines 232-254): hardware reset, wake, minimal
configuration, display off, sleep in, with the mandated delays. -/
def lcd_sleepActions (spi : Bool) : List Action :=
  [Action.gpioSetLevel LCD_RST 0, Action.delayMs 10,
   Action.gpioSetLevel LCD_RST 1, Action.delayMs 120] ++
  lcd_cmdActions spi 0x11 ++ [Action.delayMs 120] ++
  lcd_cmdActions spi 0x3A ++ lcd_dataActions spi 0x55 ++
  lcd_cmdActions spi 0x36 ++ lcd_dataActions spi 0x60 ++
  lcd_cmdActions spi 0x28 ++ [Action.delayMs 10] ++
  lcd_cmdActions spi 0x10 ++ [Action.delayMs 100]

/-- The eight 5 ms inter-sample delays of `getBatteryLevel`. -/
def getBatteryLevelActions : List Action := List.replicate 8 (Action.delayMs 5)

/-- `setLedColor` (lines 199-204): returns without transmitting unless
both the channel and the encoder initialized; otherwise transmits the
payload in GRB wire order. -/
def setLedColorActions (chan enc : Bool) (r g b : Nat) : List Action :=
  if !chan || !enc then [] else [Action.rmtTransmit [g, r, b]]

/-- `setup` (lines 260-325) as a state-and-trace function of the
environment: backlight PWM configured first with duty
`MIN_BACKLIGHT_DUTY`, best-effort LCD sleep, then RMT channel, encoder
and enable with an early return on each failure, then one initial
classify-and-transmit. -/
def setup (env : Env) : FwState × List Action :=
  let trace0 := [Action.ledcTimerSetup, Action.setBacklightDuty MIN_BACKLIGHT_DUTY,
                 Action.gpioSetDirection LCD_DC, Action.gpioSetDirection LCD_RST]
  let spi := env.spiBusOk && env.spiAddOk
  let spiTrace := if spi then lcd_sleepActions true else []
  if !env.rmtChanOk then (⟨spi, false, false, -1⟩, trace0 ++ spiTrace)
  else if !env.encoderOk then (⟨spi, true, false, -1⟩, trace0 ++ spiTrace)
  else if !env.rmtEnableOk then (⟨spi, true, true, -1⟩, trace0 ++ spiTrace)
  else
    let level := getBatteryLevel env.mv
    let zc := getBatteryColor (-1) level
    (⟨spi, true, true, zc.1⟩,
     trace0 ++ spiTrace ++ [Action.delayMs 50] ++ getBatteryLevelActions ++
       setLedColorActions true true zc.2.1 zc.2.2.1 zc.2.2.2)

/-- The unsigned 32-bit difference `millis() - last_update`. -/
def elapsed32 (now last : Nat) : Nat :=
  (now % 4294967296 + (4294967296 - last % 4294967296)) % 4294967296

/-- One iteration of `loop` (lines 327-341): when the 32-bit elapsed time
strictly exceeds `BATTERY_UPDATE_MS`, reset `last_update` to `millis()`
and classify-and-transmit; every iteration ends with the 100 ms idle
delay. -/
def loopStep (s : FwState) (last now : Nat) (mv : Nat → Nat) :
    FwState × Nat × List Action :=
  if BATTERY_UPDATE_MS < elapsed32 now last then
    let level := getBatteryLevel mv
    let zc := getBatteryColor s.current_zone level
    (⟨s.spi_lcd, s.led_chan, s.led_encoder, zc.1⟩, now,
     getBatteryLevelActions ++
       setLedColorActions s.led_chan s.led_encoder zc.2.1 zc.2.2.1 zc.2.2.2 ++
       [Action.delayMs 100])
  else (s, last, [Action.delayMs 100])

/-- Iterating `loop` over a list of successive `millis()` readings. -/
def loopRun (s : FwState) (last : Nat) (mv : Nat → Nat) :
    List Nat → FwState × Nat × List Action
  | [] => (s, last, [])
  | t :: ts =>
    let st := loopStep s last t mv
    let rest := loopRun st.1 st.2.1 mv ts
    (rest.1, rest.2.1, st.2.2 ++ rest.2.2)

/-- `lcd_cmd` writes no backlight duty. -/
theorem lcd_cmd_no_backlight (spi : Bool) (c : Nat) :
    (lcd_cmdActions spi c).filterMap backlightWrite = [] := by
  cases spi <;> rfl

/-- `lcd_data` writes no backlight duty. -/
theorem lcd_data_no_backlight (spi : Bool) (d : Nat) :
    (lcd_dataActions spi d).filterMap backlightWrite = [] := by
  cases spi <;> rfl

/-- `lcd_sleep` writes no backlight duty. -/
theorem lcd_sleep_no_backlight (spi : Bool) :
    (lcd_sleepActions spi).filterMap backlightWrite = [] := by
  cases spi <;> rfl

/-- The battery sampling delays write no backlight duty. -/
theorem getBatteryLevel_no_backlight :
    getBatteryLevelActions.filterMap backlightWrite = [] := rfl

/-- `setLedColor` writes no backlight duty. -/
theorem setLedColor_no_backlight (chan enc : Bool) (r g b : Nat) :
    (setLedColorActions chan enc r g b).filterMap backlightWrite = [] := by
  cases chan <;> cases enc <;> rfl

/-- One loop iteration writes no backlight duty. -/
theorem loopStep_no_backlight (s : FwState) (last now : Nat) (mv : Nat → Nat) :
    ((loopStep s last now mv).2.2).filterMap backlightWrite = [] := by
  rw [loopStep]
  split_ifs
  · simp [List.filterMap_append, getBatteryLevel_no_backlight,
      setLedColor_no_backlight, backlightWrite]
  · rfl

/-- No number of loop iterations writes any backlight duty. -/
theorem loopRun_no_backlight (mv : Nat → Nat) :
    ∀ times : List Nat, ∀ s : FwState, ∀ last : Nat,
      ((loopRun s last mv times).2.2).filterMap backlightWrite = [] := by
  intro times
  induction times with
  | nil => intro s last; rfl
  | cons t ts ih =>
    intro s last
    simp [loopRun, List.filterMap_append, loopStep_no_backlight, ih]

/-- `setup` writes the backlight duty exactly once, to the minimum. -/
theorem setup_backlight_once (env : Env) :
    ((setup env).2).filterMap backlightWrite = [MIN_BACKLIGHT_DUTY] := by
  obtain ⟨sb, sa, rc, eo, re, mv⟩ := env
  cases sb <;> cases sa <;> cases rc <;> cases eo <;> cases re <;>
    simp [setup, List.filterMap_append, lcd_sleep_no_backlight,
      getBatteryLevel_no_backlight, setLedColor_no_backlight, backlightWrite]

/-- C3: over any complete execution (setup followed by any number of loop
iterations from any state) the backlight duty is written exactly once, by
setup, to `MIN_BACKLIGHT_DUTY` = 5000; `lcd_sleep`, `getBatteryLevel`,
`setLedColor` and `loop` never write it, so every duty ever written is at
least the minimum. -/
theorem c3_backlight_once (env : Env) (s : FwState) (last : Nat)
    (mv : Nat → Nat) (times : List Nat) :
    ((setup env).2 ++ (loopRun s last mv times).2.2).filterMap backlightWrite
      = [MIN_BACKLIGHT_DUTY] ∧
    MIN_BACKLIGHT_DUTY = 5000 ∧
    (∀ spi : Bool, (lcd_sleepActions spi).filterMap backlightWrite = []) ∧
    getBatteryLevelActions.filterMap backlightWrite = [] ∧
    (∀ chan enc : Bool, ∀ r g b : Nat,
      (setLedColorActions chan enc r g b).filterMap backlightWrite = []) ∧
    (((setup env).2 ++ (loopRun s last mv times).2.2).filterMap
        backlightWrite).all (fun d => decide (MIN_BACKLIGHT_DUTY ≤ d)) = true := by
  have hmain : ((setup env).2 ++ (loopRun s last mv times).2.2).filterMap
      backlightWrite = [MIN_BACKLIGHT_DUTY] := by
    rw [List.filterMap_append, setup_backlight_once, loopRun_no_backlight,
      List.append_nil]
  refine ⟨hmain, rfl, lcd_sleep_no_backlight, getBatteryLevel_no_backlight,
    setLedColor_no_backlight, ?_⟩
  rw [hmain]
  rfl

/-- The battery sampling delays transmit nothing on the RMT channel. -/
theorem getBatteryLevel_no_rmt :
    getBatteryLevelActions.filterMap rmtPayload = [] := rfl

/-- The battery sampling delays transmit nothing on the SPI bus. -/
theorem getBatteryLevel_no_spi :
    getBatteryLevelActions.filterMap spiByte = [] := rfl

/-- C2 (amended): in a loop iteration, when the elapsed time since the
last update is at most 10,000 ms no classify-and-transmit occurs and the
counter keeps its value; when it strictly exceeds 10,000 ms (and the LED
handles are live) exactly one transmission occurs and the counter is reset
to the current time, so the next idle tick sees a small elapsed time. -/
theorem c2_loop_interval (s : FwState) (last now : Nat) (mv : Nat → Nat)
    (h1 : last ≤ now) (h2 : now < 4294967296) :
    (now - last ≤ BATTERY_UPDATE_MS →
      ((loopStep s last now mv).2.2).filterMap rmtPayload = [] ∧
      (loopStep s last now mv).2.1 = last) ∧
    (BATTERY_UPDATE_MS < now - last → s.led_chan = true → s.led_encoder = true →
      (((loopStep s last now mv).2.2).filterMap rmtPayload).length = 1 ∧
      (loopStep s last now mv).2.1 = now) := by
  have helapsed : elapsed32 now last = now - last := by
    unfold elapsed32
    omega
  constructor
  · intro hle
    rw [loopStep, helapsed, if_neg (by omega)]
    exact ⟨rfl, rfl⟩
  · intro hgt hc he
    rw [loopStep, helapsed, if_pos hgt, hc, he]
    refine ⟨?_, rfl⟩
    simp [List.filterMap_append, getBatteryLevel_no_rmt, setLedColorActions,
      rmtPayload]

/-- C2 counterexample: at elapsed time exactly 10,000 ms (`millis()` =
10000, `last_update` = 0) the loop condition `millis() - last_update >
10000` is false, so no transmission occurs and the counter is not reset,
refuting the claim that one transmission occurs whenever the elapsed time
is at least 10,000 ms. -/
theorem c2_loop_interval_counterexample :
    elapsed32 10000 0 = 10000 ∧
    BATTERY_UPDATE_MS ≤ elapsed32 10000 0 ∧
    ((loopStep ⟨false, true, true, 0⟩ 0 10000 (fun _ => 3700)).2.2).filterMap
      rmtPayload = [] ∧
    (loopStep ⟨false, true, true, 0⟩ 0 10000 (fun _ => 3700)).2.1 = 0 := by
  refine ⟨?_, ?_, rfl, rfl⟩ <;> decide

/-- Witness for C2 at `millis()` = 20000, `last_update` = 0 with live
handles: elapsed 20000 ms, one transmission, counter reset. -/
theorem c2_loop_interval_witness :
    (0 ≤ 20000 ∧ 20000 < 4294967296 ∧ BATTERY_UPDATE_MS < 20000 - 0) ∧
    (((loopStep ⟨false, true, true, 0⟩ 0 20000 (fun _ => 3700)).2.2).filterMap
        rmtPayload).length = 1 ∧
    (loopStep ⟨false, true, true, 0⟩ 0 20000 (fun _ => 3700)).2.1 = 20000 :=
  ⟨⟨Nat.zero_le _, by decide, by decide⟩,
   (c2_loop_interval ⟨false, true, true, 0⟩ 0 20000 (fun _ => 3700)
      (Nat.zero_le _) (by decide)).2 (by decide) rfl rfl⟩

/-- C8: initialization failures degrade to no-ops.  If the SPI display bus
cannot be acquired but the RMT path initializes, `setup` still completes,
performs exactly one LED transmission and sends no SPI byte; `lcd_cmd` and
`lcd_data` without a device, and `setLedColor` with a missing channel or
encoder handle, do nothing. -/
theorem c8_degraded_init (env : Env) (hspi : env.spiBusOk = false)
    (hc : env.rmtChanOk = true) (he : env.encoderOk = true)
    (hen : env.rmtEnableOk = true) :
    (((setup env).2).filterMap rmtPayload).length = 1 ∧
    ((setup env).2).filterMap spiByte = [] ∧
    (∀ c : Nat, lcd_cmdActions false c = [] ∧ lcd_dataActions false c = []) ∧
    (∀ r g b : Nat, setLedColorActions false false r g b = [] ∧
      setLedColorActions false true r g b = [] ∧
      setLedColorActions true false r g b = []) := by
  obtain ⟨sb, sa, rc, eo, re, mv⟩ := env
  have hsb : sb = false := hspi
  have hrc : rc = true := hc
  have heo : eo = true := he
  have hre : re = true := hen
  subst hsb hrc heo hre
  refine ⟨?_, ?_, fun c => ⟨rfl, rfl⟩, fun r g b => ⟨rfl, rfl, rfl⟩⟩
  · simp [setup, List.filterMap_append, getBatteryLevel_no_rmt,
      setLedColorActions, rmtPayload]
  · simp [setup, List.filterMap_append, getBatteryLevel_no_spi,
      setLedColorActions, spiByte]

/-- Witness for C8 in the environment where the SPI bus acquisition fails,
the RMT path succeeds, and every sample reads 3700 mV. -/
theorem c8_degraded_init_witness :
    (((setup ⟨false, false, true, true, true, fun _ => 3700⟩).2).filterMap
        rmtPayload).length = 1 ∧
    ((setup ⟨false, false, true, true, true, fun _ => 3700⟩).2).filterMap
      spiByte = [] ∧
    (∀ c : Nat, lcd_cmdActions false c = [] ∧ lcd_dataActions false c = []) ∧
    (∀ r g b : Nat, setLedColorActions false false r g b = [] ∧
      setLedColorActions false true r g b = [] ∧
      setLedColorActions true false r g b = []) :=
  c8_degraded_init ⟨false, false, true, true, true, fun _ => 3700⟩
    rfl rfl rfl rfl

/-- C10: for every RGB input, `setLedColor` with live handles transmits
the three payload bytes in GRB wire order: green first, then red, then
blue. -/
theorem c10_grb_order (r g b : Nat) :
    setLedColorActions true true r g b = [Action.rmtTransmit [g, r, b]] := rfl

end ChargeMode
